import Mathlib

/-!
# Route composition of the server-side rendered frontend

A shallow embedding of `internal/frontend/http.go`: `SSRHandler.SetupRoutes`
and `SSRHandler.userFacingError`, together with the standard-library functions
they call (`path.Join`, `path.Clean`, `strings.TrimPrefix`, `http.StripPrefix`).

Go strings are modelled by `String`, read as a sequence of characters. A Go
`map[string]string` is modelled by an association list whose order is the
order in which `range` happens to traverse the map. A handler is modelled by
the list of observable effects it has on a request.
-/

set_option autoImplicit false

/-! ## Standard library: package strings -/

namespace strings

/-- Go `strings.HasPrefix(s, prefix)`: `s` begins with the given string. -/
def HasPrefix (s pfx : String) : Bool :=
  pfx.data.isPrefixOf s.data

/-- Go `strings.TrimPrefix(s, prefix)`: `s` without the leading string when it
is there, `s` itself otherwise. -/
def TrimPrefix (s pfx : String) : String :=
  if HasPrefix s pfx then ⟨s.data.drop pfx.data.length⟩ else s

end strings

/-! ## Standard library: package path -/

namespace path

/-- Inner loop of the `..` case of `path.Clean`, entered after `out.w--` with
the new value of `out.w`:
`for out.w > dotdot && out.index(out.w) != '/' { out.w-- }`.
Returns the final value of `out.w`. -/
def backtrack (buf : List Char) (dotdot : Nat) : Nat → Nat
  | 0 => 0
  | w + 1 =>
    if w + 1 > dotdot ∧ buf.getD (w + 1) '/' ≠ '/' then backtrack buf dotdot w else w + 1

/-- Main loop `for r < n` of `path.Clean`. The argument `p` is the unread part
`path[r:]`, `out` the bytes written so far (so `out.w = out.length`). Every
iteration advances `r`, so the loop is run with `n` units of fuel. -/
def cleanLoop (rooted : Bool) : Nat → List Char → List Char → Nat → List Char
  | 0, _, out, _ => out
  | _ + 1, [], out, _ => out
  | fuel + 1, c :: rest, out, dotdot =>
    if c = '/' then
      -- empty path element
      cleanLoop rooted fuel rest out dotdot
    else if c = '.' ∧ (rest = [] ∨ rest.head? = some '/') then
      -- . element
      cleanLoop rooted fuel rest out dotdot
    else if c = '.' ∧ rest.head? = some '.' ∧
        (rest.tail = [] ∨ rest.tail.head? = some '/') then
      -- .. element: remove to last /
      if out.length > dotdot then
        cleanLoop rooted fuel rest.tail
          (out.take (backtrack out dotdot (out.length - 1))) dotdot
      else if !rooted then
        let out2 := (if out.length > 0 then out ++ ['/'] else out) ++ ['.', '.']
        cleanLoop rooted fuel rest.tail out2 out2.length
      else
        cleanLoop rooted fuel rest.tail out dotdot
    else
      -- real path element: add slash if needed, copy element
      let out1 :=
        if (rooted ∧ out.length ≠ 1) ∨ (!rooted ∧ out.length ≠ 0) then out ++ ['/'] else out
      cleanLoop rooted fuel ((c :: rest).dropWhile (fun x => x != '/'))
        (out1 ++ (c :: rest).takeWhile (fun x => x != '/')) dotdot

/-- Go `path.Clean`: the shortest path name equivalent to `p` by purely
lexical processing. -/
def Clean (p : String) : String :=
  if p = "" then "."
  else
    let rooted : Bool := p.data.head? = some '/'
    let out :=
      if rooted then cleanLoop rooted p.data.length p.data.tail ['/'] 1
      else cleanLoop rooted p.data.length p.data [] 0
    -- Turn empty string into "."
    if out.length = 0 then "." else ⟨out⟩

/-- Buffer of `path.Join` after appending one more element: empty elements
are ignored while the buffer is empty, a separator goes in front of every
element but the first. -/
def joinStep (buf e : String) : String :=
  if buf.length > 0 ∨ e ≠ "" then (if buf.length > 0 then buf ++ "/" else buf) ++ e
  else buf

/-- Go `path.Join(elem...)`: joins the elements with slashes and cleans the
result; the result is empty when all elements are empty. -/
def Join (elems : List String) : String :=
  if (elems.map String.length).sum = 0 then ""
  else Clean (elems.foldl joinStep "")

end path

/-! ## Standard library: package path/filepath (Unix) -/

namespace filepath

/-- Go `filepath.Base` where the separator is the slash and there are no volume
names: the last element of the path, after trailing slashes are removed; "."
for the empty path, "/" for a path of slashes only. -/
def Base (p : String) : String :=
  if p = "" then "."
  else
    -- Strip trailing slashes.
    let stripped := (p.data.reverse.dropWhile (fun c => c == '/')).reverse
    -- Find the last element
    let last := (stripped.reverse.takeWhile (fun c => c != '/')).reverse
    -- If empty now, it had only slashes.
    if last = [] then "/" else ⟨last⟩

end filepath

/-! ## Requests, effects and handlers -/

/-- The part of `*http.Request` the routes look at: `r.URL.Path` and
`r.URL.RawPath`. -/
structure Request where
  Path : String
  RawPath : String
deriving DecidableEq, Repr

/-- What a handler does to answer a request. The handlers that are not part
of this file (index page, lobby endpoints, the file servers of `net/http`)
appear as one effect each, carrying the request they were given. -/
inductive Effect where
  /-- Call of `handler.indexPageHandler(w, r)`. -/
  | indexPageHandler (r : Request)
  /-- Call of `handler.ssrEnterLobby(w, r)`. -/
  | ssrEnterLobby (r : Request)
  /-- Call of `handler.ssrCreateLobby(w, r)`. -/
  | ssrCreateLobby (r : Request)
  /-- Call of `http.FileServer(http.FS(os.DirFS(dir))).ServeHTTP(w, r)`. -/
  | dirFileServer (dir : String) (r : Request)
  /-- Call of `http.FileServer(http.FS(frontendResourcesFS)).ServeHTTP(w, r)`. -/
  | resourcesFileServer (r : Request)
  /-- Call of `w.Header().Set(key, value)`. -/
  | headerSet (key value : String)
  /-- Call of `http.NotFound(w, r)`: replies with status 404. -/
  | NotFound (r : Request)
deriving DecidableEq, Repr

/-- Go `http.HandlerFunc`, as the effects of serving a request. -/
abbrev HandlerFunc := Request → List Effect

namespace http

/-- Go `http.FileServer(http.FS(os.DirFS(dir))).ServeHTTP`. -/
def FileServer (dir : String) : HandlerFunc :=
  fun r => [Effect.dirFileServer dir r]

/-- Go `http.StripPrefix(prefix, h)`: serves a request by removing the given
string from the front of the path (and raw path) and calling `h`; a request
whose path does not start with it is answered with `http.NotFound`. -/
def StripPrefix (pfx : String) (h : HandlerFunc) : HandlerFunc :=
  if pfx = "" then h
  else fun r =>
    let p := strings.TrimPrefix r.Path pfx
    let rp := strings.TrimPrefix r.RawPath pfx
    if p.length < r.Path.length ∧ (r.RawPath = "" ∨ rp.length < r.RawPath.length) then
      h { Path := p, RawPath := rp }
    else [Effect.NotFound r]

end http

/-! ## Configuration and handler state -/

/-- BasePageConfig is data that all pages require to function correctly. -/
structure BasePageConfig where
  Version : String
  Commit : String
  RootPath : String
  RootURL : String
  CacheBust : String
deriving DecidableEq, Repr

/-- A Go `map[string]string`, listed in traversal order. -/
abbrev StringMap := List (String × String)

/-- Go map index `m[k]`: the value stored under `k`, the zero value `""` when
the key is absent. -/
def StringMap.index (m : StringMap) (k : String) : String :=
  (m.lookup k).getD ""

/-- Go builtin `delete(m, k)`. -/
def StringMap.delete (m : StringMap) (k : String) : StringMap :=
  m.filter (fun e => e.1 != k)

/-- The fields of the configuration that `SetupRoutes` reads. -/
structure Config where
  RootPath : String
  ServeDirectories : StringMap
deriving DecidableEq, Repr

/-- The fields of `SSRHandler` used by `SetupRoutes` and `userFacingError`. -/
structure SSRHandler where
  cfg : Config
  basePageConfig : BasePageConfig
deriving DecidableEq, Repr

/-- One call `register(method, pattern, handler)`. -/
structure Route where
  method : String
  pattern : String
  handler : HandlerFunc

/-- Method and pattern of a registered route. -/
def Route.key (r : Route) : String × String := (r.method, r.pattern)

/-- What `SetupRoutes` leaves behind: the handler, whose configuration holds
the map that was passed in (a Go map is shared by reference), the calls made to
`register`, in order, and the lines printed to standard output, each given by
the two operands of `fmt.Println`: `filepath.Base(dir)` and the directory of
the file server printed after it. -/
structure SetupResult where
  handler : SSRHandler
  registered : List Route
  stdout : List (String × String)

namespace SSRHandler

/-- Body of the loop over the mounts (lines 65 to 75): the route registered
for the entry `route ↦ dir`. -/
def mountRoute (RootPath : String) (e : String × String) : Route :=
  { method := "GET"
    -- Trailing slash means wildcard.
    pattern := path.Join [RootPath, e.1] ++ "/"
    handler := http.StripPrefix ("/" ++ path.Join [RootPath, e.1] ++ "/") (http.FileServer e.2) }

/-- The closure registered under the root path (lines 78 to 87);
`genericFileHandler` is `none` when the Go variable is nil. -/
def rootHandler (genericFileHandler : Option HandlerFunc) : HandlerFunc :=
  fun r =>
    if r.Path = "" ∨ r.Path = "/" then [Effect.indexPageHandler r]
    else
      match genericFileHandler with
      | some h => h r
      | none => []

/-- The closure wrapped by `http.StripPrefix` for the embedded resources
(lines 94 to 99). -/
def resourcesHandler : HandlerFunc :=
  fun r =>
    -- Duration of 1 year, since we use cachebusting anyway.
    Effect.headerSet "Cache-Control" "public, max-age=31536000" ::
      [Effect.resourcesFileServer r]

/-- The four calls to `register` that follow the loop (lines 78 to 103): the
root handler, the embedded resources and the two lobby endpoints. -/
def fixedRoutes (RootPath : String) (genericFileHandler : Option HandlerFunc) : List Route :=
  [ { method := "GET", pattern := RootPath, handler := rootHandler genericFileHandler },
    { method := "GET", pattern := path.Join [RootPath, "resources", "{file}"],
      handler := http.StripPrefix ("/" ++ RootPath) resourcesHandler },
    { method := "GET", pattern := path.Join [RootPath, "ssrEnterLobby", "{lobby_id}"],
      handler := fun r => [Effect.ssrEnterLobby r] },
    { method := "POST", pattern := path.Join [RootPath, "ssrCreateLobby"],
      handler := fun r => [Effect.ssrCreateLobby r] } ]

/-- SetupRoutes registers the official webclient endpoints. -/
def SetupRoutes (handler : SSRHandler) : SetupResult :=
  let dir := handler.cfg.ServeDirectories.index ""
  let genericFileHandler : Option HandlerFunc :=
    if dir ≠ "" then some (http.FileServer dir) else none
  let ServeDirectories : StringMap :=
    if dir ≠ "" then handler.cfg.ServeDirectories.delete "" else handler.cfg.ServeDirectories
  let RootPath := handler.cfg.RootPath
  { handler := { handler with cfg := { handler.cfg with ServeDirectories := ServeDirectories } }
    registered :=
      ServeDirectories.map (mountRoute RootPath) ++ fixedRoutes RootPath genericFileHandler
    stdout := ServeDirectories.map (fun e => (filepath.Base e.2, e.2)) }

end SSRHandler

/-! ## Error page -/

/-- Data that error.html requires to be displayed. `Translation` stands for
`translations.Translation`; `none` is its zero value. -/
structure errorPageData (Translation : Type) where
  BasePageConfig : BasePageConfig
  ErrorMessage : String
  Translation : Option Translation
  Locale : String

/-- One call `pageTemplates.ExecuteTemplate(w, name, data)`. -/
structure TemplateCall (W Translation : Type) where
  w : W
  name : String
  data : errorPageData Translation

/-- How a call ends: it returns, or it panics with a value. -/
inductive Outcome (E : Type) where
  | returned
  | panicked (err : E)

/-- Result of `userFacingError`: the template executions it made, the response
target afterwards, and how it ended. -/
structure ErrorPageResult (W E Translation : Type) where
  calls : List (TemplateCall W Translation)
  w : W
  outcome : Outcome E

/-- Go `userFacingError`: returns the occurred error as a custom html page to
the caller. `ExecuteTemplate` is the template engine: from the response target,
a template name and the data it gives the target after writing and the error,
if any. -/
def SSRHandler.userFacingError {W E Translation : Type}
    (ExecuteTemplate : W → String → errorPageData Translation → W × Option E)
    (handler : SSRHandler) (w : W) (errorMessage : String) :
    ErrorPageResult W E Translation :=
  let data : errorPageData Translation :=
    { BasePageConfig := handler.basePageConfig
      ErrorMessage := errorMessage
      Translation := none
      Locale := "" }
  let res := ExecuteTemplate w "error-page" data
  -- This should never happen, but if it does, something is very wrong.
  match res.2 with
  | some err => { calls := [⟨w, "error-page", data⟩], w := res.1, outcome := Outcome.panicked err }
  | none => { calls := [⟨w, "error-page", data⟩], w := res.1, outcome := Outcome.returned }

/-! ## Paths in normal form -/

/-- A path element: non-empty, without a slash, and neither "." nor "..". -/
def path.IsElem (e : List Char) : Prop :=
  e ≠ [] ∧ '/' ∉ e ∧ e ≠ ['.'] ∧ e ≠ ['.', '.']

/-- The elements, separated by slashes. -/
def path.joinElems : List (List Char) → List Char
  | [] => []
  | [e] => e
  | e :: e2 :: es => e ++ '/' :: path.joinElems (e2 :: es)

/-- A relative path in normal form: one or more path elements separated by
single slashes, such as "game" or "scribblers/v1". -/
def path.IsCleanRelative (s : String) : Prop :=
  ∃ es : List (List Char), es ≠ [] ∧ (∀ e ∈ es, path.IsElem e) ∧ s.data = path.joinElems es

/-! ## Concrete configurations used below -/

/-- A base page configuration with every field empty. -/
def emptyBase : BasePageConfig :=
  { Version := "", Commit := "", RootPath := "", RootURL := "", CacheBust := "" }

/-- A handler with the given root path and mount table. -/
def mkHandler (RootPath : String) (ServeDirectories : StringMap) : SSRHandler :=
  { cfg := { RootPath := RootPath, ServeDirectories := ServeDirectories }
    basePageConfig := emptyBase }

/-- Method and pattern of every call to `register`, in order. -/
def SSRHandler.registeredKeys (handler : SSRHandler) : List (String × String) :=
  handler.SetupRoutes.registered.map Route.key

/-- The table the loop of `SetupRoutes` ranges over: the table as it is after
the conditional `delete`, which is also the table the handler is left with. -/
def SSRHandler.mounts (handler : SSRHandler) : StringMap :=
  handler.SetupRoutes.handler.cfg.ServeDirectories

/-- The same handler configured with another mount table (for instance the
same table traversed in another order). -/
def SSRHandler.withTable (handler : SSRHandler) (table : StringMap) : SSRHandler :=
  { cfg := { RootPath := handler.cfg.RootPath, ServeDirectories := table }
    basePageConfig := handler.basePageConfig }

/-- The handler of the scenario with root path "", the fallback directory /www
and the mount "assets" of /static. -/
def scenarioHandler : SSRHandler :=
  mkHandler "" [("", "/www"), ("assets", "/static")]

/-- A handler under root path "game" with a fallback and two mounts. -/
def gameHandler : SSRHandler :=
  mkHandler "game" [("", "/www"), ("assets", "/static"), ("img", "/pics")]

/-- The table of `gameHandler` in another traversal order. -/
def gameTableReordered : StringMap :=
  [("img", "/pics"), ("", "/www"), ("assets", "/static")]

/-! ## Helper lemmas -/

/-- The loop of `path.Clean` does not run out of fuel: any two amounts of fuel
that are at least the length of the unread part give the same result, so the
`n` units `Clean` starts with are enough. -/
theorem path.cleanLoop_fuel (rooted : Bool) :
    ∀ (fuel1 fuel2 : Nat) (p out : List Char) (dotdot : Nat),
      p.length ≤ fuel1 → p.length ≤ fuel2 →
        path.cleanLoop rooted fuel1 p out dotdot = path.cleanLoop rooted fuel2 p out dotdot := by
  intro fuel1
  induction fuel1 with
  | zero =>
    intro fuel2 p out dotdot h1 _
    have hp : p = [] := List.length_eq_zero.mp (Nat.le_zero.mp h1)
    subst hp
    cases fuel2 <;> rfl
  | succ n ih =>
    intro fuel2 p out dotdot h1 h2
    cases p with
    | nil => cases fuel2 <;> rfl
    | cons c rest =>
      cases fuel2 with
      | zero => simp at h2
      | succ m =>
        simp only [List.length_cons, Nat.add_le_add_iff_right] at h1 h2
        have ht1 : rest.tail.length ≤ n := by
          have := List.length_tail rest
          omega
        have ht2 : rest.tail.length ≤ m := by
          have := List.length_tail rest
          omega
        simp only [path.cleanLoop]
        have hd : c ≠ '/' →
            ((c :: rest).dropWhile (fun x => x != '/')).length ≤ rest.length := by
          intro hc
          have hne : (c != '/') = true := by simpa using hc
          rw [List.dropWhile_cons, if_pos hne]
          exact (List.dropWhile_sublist _).length_le
        split_ifs with hc
        all_goals
          first
          | exact ih _ _ _ _ h1 h2
          | exact ih _ _ _ _ ht1 ht2
          | exact ih _ _ _ _ (le_trans (hd hc) h1) (le_trans (hd hc) h2)

theorem takeWhile_dropWhile_elem (g tail : List Char) (hg : '/' ∉ g)
    (ht : tail = [] ∨ ∃ t, tail = '/' :: t) :
    (g ++ tail).takeWhile (fun x => x != '/') = g ∧
      (g ++ tail).dropWhile (fun x => x != '/') = tail := by
  induction g with
  | nil =>
    rcases ht with rfl | ⟨t, rfl⟩ <;> simp
  | cons a as ih =>
    have ha : a ≠ '/' := fun h => hg (by simp [h])
    have has : '/' ∉ as := fun h => hg (by simp [h])
    have := ih has
    simp [List.takeWhile_cons, List.dropWhile_cons, ha, this]

theorem path.cleanLoop_elem (e tail out : List Char) (dotdot fuel : Nat)
    (he : path.IsElem e) (ht : tail = [] ∨ ∃ t, tail = '/' :: t) :
    path.cleanLoop false (fuel + 1) (e ++ tail) out dotdot =
      path.cleanLoop false fuel tail ((if out.length ≠ 0 then out ++ ['/'] else out) ++ e)
        dotdot := by
  obtain ⟨hne, hslash, hdot, hdotdot⟩ := he
  cases e with
  | nil => exact absurd rfl hne
  | cons c e' =>
    have hc : c ≠ '/' := fun h => hslash (by simp [h])
    have he' : '/' ∉ e' := fun h => hslash (by simp [h])
    have h2 : ¬ (c = '.' ∧ (e' ++ tail = [] ∨ (e' ++ tail).head? = some '/')) := by
      rintro ⟨rfl, h⟩
      cases e' with
      | nil => exact hdot rfl
      | cons d e'' =>
        rcases h with h | h
        · simp at h
        · simp at h
          exact he' (by simp [h])
    have h3 : ¬ (c = '.' ∧ (e' ++ tail).head? = some '.' ∧
        ((e' ++ tail).tail = [] ∨ (e' ++ tail).tail.head? = some '/')) := by
      rintro ⟨rfl, hh, h⟩
      cases e' with
      | nil =>
        rcases ht with rfl | ⟨t, rfl⟩ <;> simp at hh
      | cons d e'' =>
        simp at hh
        subst hh
        cases e'' with
        | nil => exact hdotdot rfl
        | cons f e3 =>
          rcases h with h | h
          · simp at h
          · simp at h
            exact he' (by simp [h])
    have htd := takeWhile_dropWhile_elem (c :: e') tail hslash ht
    simp only [List.cons_append] at htd ⊢
    simp only [path.cleanLoop, if_neg hc, if_neg h2, if_neg h3, htd.1, htd.2]
    simp

theorem path.joinElems_ne_nil (es : List (List Char)) (hne : es ≠ [])
    (hes : ∀ e ∈ es, path.IsElem e) : path.joinElems es ≠ [] := by
  cases es with
  | nil => exact absurd rfl hne
  | cons e es' =>
    have he := (hes e (by simp)).1
    cases es' with
    | nil => simpa [path.joinElems] using he
    | cons e2 es'' => simp [path.joinElems, he]

theorem path.cleanLoop_joinElems (es : List (List Char)) :
    es ≠ [] → (∀ e ∈ es, path.IsElem e) → ∀ (out : List Char) (dotdot fuel : Nat),
      (path.joinElems es).length ≤ fuel →
      path.cleanLoop false fuel (path.joinElems es) out dotdot =
        (if out.length ≠ 0 then out ++ ['/'] else out) ++ path.joinElems es := by
  induction es with
  | nil => intro h; exact absurd rfl h
  | cons e es' ih =>
    intro _ hes out dotdot fuel hf
    have he := hes e (by simp)
    cases es' with
    | nil =>
      simp only [path.joinElems] at hf ⊢
      cases fuel with
      | zero =>
        have : e = [] := List.length_eq_zero.mp (Nat.le_zero.mp hf)
        exact absurd this he.1
      | succ f =>
        have := path.cleanLoop_elem e [] out dotdot f he (Or.inl rfl)
        simp only [List.append_nil] at this
        rw [this]
        cases f <;> rfl
    | cons e2 es'' =>
      simp only [path.joinElems, List.length_append, List.length_cons] at hf ⊢
      have hes' : ∀ x ∈ e2 :: es'', path.IsElem x := fun x hx => hes x (by simp [hx])
      have hpos : 0 < e.length := List.length_pos.mpr he.1
      obtain ⟨f, rfl⟩ : ∃ f, fuel = f + 1 := ⟨fuel - 1, by omega⟩
      rw [path.cleanLoop_elem e _ out dotdot f he (Or.inr ⟨_, rfl⟩)]
      obtain ⟨g, rfl⟩ : ∃ g, f = g + 1 := ⟨f - 1, by omega⟩
      simp only [path.cleanLoop, if_true]
      rw [ih (by simp) hes' _ dotdot g (by omega)]
      have hlen : ((if out.length ≠ 0 then out ++ ['/'] else out) ++ e).length ≠ 0 := by
        simp only [List.length_append]
        omega
      simp only [hlen, ne_eq, not_false_eq_true, if_true, List.append_assoc, List.singleton_append]

/-- Go `path.Clean` leaves a relative path in normal form as it is. -/
theorem path.Clean_of_cleanRelative (s : String) (hs : path.IsCleanRelative s) :
    path.Clean s = s := by
  obtain ⟨es, hne, hes, hdata⟩ := hs
  have hnil := path.joinElems_ne_nil es hne hes
  have hs0 : s ≠ "" := by
    intro h
    rw [h] at hdata
    exact hnil hdata.symm
  have hhead : (path.joinElems es).head? ≠ some '/' := by
    cases es with
    | nil => exact absurd rfl hne
    | cons e es' =>
      have he := hes e (by simp)
      cases e with
      | nil => exact absurd rfl he.1
      | cons c e' =>
        have hc : c ≠ '/' := fun h => he.2.1 (by simp [h])
        cases es' <;> simpa [path.joinElems] using hc
  unfold path.Clean
  rw [if_neg hs0]
  simp only [hdata, hhead, decide_False, Bool.false_eq_true, if_false]
  rw [path.cleanLoop_joinElems es hne hes [] 0 _ (le_refl _)]
  simp only [List.length_nil, ne_eq, not_true_eq_false, if_false, List.nil_append,
    List.length_eq_zero, hnil]
  rw [← hdata]

theorem path.joinElems_append (xs ys : List (List Char)) (hx : xs ≠ []) (hy : ys ≠ []) :
    path.joinElems (xs ++ ys) = path.joinElems xs ++ '/' :: path.joinElems ys := by
  induction xs with
  | nil => exact absurd rfl hx
  | cons e es ih =>
    cases es with
    | nil =>
      cases ys with
      | nil => exact absurd rfl hy
      | cons y ys' => simp [path.joinElems]
    | cons e2 es' =>
      have := ih (by simp)
      simp only [List.cons_append] at this ⊢
      simp only [path.joinElems, this, List.append_assoc, List.cons_append]

theorem path.IsCleanRelative.join (a b : String) (ha : path.IsCleanRelative a)
    (hb : path.IsCleanRelative b) : path.IsCleanRelative (a ++ "/" ++ b) := by
  obtain ⟨xs, hx, hxs, hxd⟩ := ha
  obtain ⟨ys, hy, hys, hyd⟩ := hb
  refine ⟨xs ++ ys, by simp [hx], ?_, ?_⟩
  · intro e he
    rcases List.mem_append.mp he with h | h
    · exact hxs e h
    · exact hys e h
  · rw [path.joinElems_append xs ys hx hy]
    simp [String.data_append, hxd, hyd]

theorem path.IsCleanRelative.ne_empty (a : String) (ha : path.IsCleanRelative a) :
    a.length ≠ 0 := by
  obtain ⟨xs, hx, hxs, hxd⟩ := ha
  have := path.joinElems_ne_nil xs hx hxs
  rw [← hxd] at this
  intro h
  exact this (List.length_eq_zero.mp h)

/-- Go `path.Join` of two relative paths in normal form puts one slash between
them. -/
theorem path.Join_pair (a b : String) (ha : path.IsCleanRelative a)
    (hb : path.IsCleanRelative b) : path.Join [a, b] = a ++ "/" ++ b := by
  have ha0 := path.IsCleanRelative.ne_empty a ha
  have hpos : 0 < a.length := Nat.pos_of_ne_zero ha0
  have hane : a ≠ "" := by
    intro h
    rw [h] at ha0
    exact ha0 rfl
  have hfold : [a, b].foldl path.joinStep "" = a ++ "/" ++ b := by
    have h1 : path.joinStep "" a = a := by
      unfold path.joinStep
      simp only [String.length, String.data, List.length_nil, gt_iff_lt, Nat.lt_irrefl,
        false_or, hane, ne_eq, not_false_eq_true, if_true, if_false]
      apply String.ext
      simp [String.data_append]
    simp only [List.foldl, h1]
    simp [path.joinStep, hpos]
  unfold path.Join
  rw [if_neg (by simp only [List.map, List.sum_cons]; omega), hfold]
  exact path.Clean_of_cleanRelative _ (path.IsCleanRelative.join a b ha hb)

/-- Go `path.Join` of three relative paths in normal form. -/
theorem path.Join_triple (a b c : String) (ha : path.IsCleanRelative a)
    (hb : path.IsCleanRelative b) (hc : path.IsCleanRelative c) :
    path.Join [a, b, c] = a ++ "/" ++ b ++ "/" ++ c := by
  have ha0 := path.IsCleanRelative.ne_empty a ha
  have hpos : 0 < a.length := Nat.pos_of_ne_zero ha0
  have hane : a ≠ "" := by
    intro h
    rw [h] at ha0
    exact ha0 rfl
  have hfold : [a, b, c].foldl path.joinStep "" = a ++ "/" ++ b ++ "/" ++ c := by
    have h1 : path.joinStep "" a = a := by
      unfold path.joinStep
      simp only [String.length, String.data, List.length_nil, gt_iff_lt, Nat.lt_irrefl,
        false_or, hane, ne_eq, not_false_eq_true, if_true, if_false]
      apply String.ext
      simp [String.data_append]
    have h2 : path.joinStep a b = a ++ "/" ++ b := by simp [path.joinStep, hpos]
    have h3 : path.joinStep (a ++ "/" ++ b) c = a ++ "/" ++ b ++ "/" ++ c := by
      simp [path.joinStep, hpos]
    simp only [List.foldl, h1, h2, h3]
  unfold path.Join
  rw [if_neg (by simp only [List.map, List.sum_cons]; omega), hfold]
  exact path.Clean_of_cleanRelative _
    (path.IsCleanRelative.join _ c (path.IsCleanRelative.join a b ha hb) hc)

theorem path.isCleanRelative_of_elem (s : String) (h : path.IsElem s.data) :
    path.IsCleanRelative s :=
  ⟨[s.data], by simp, by simpa using h, rfl⟩

/-- Two root paths in normal form: "game" and "scribblers/v1". -/
theorem path.isCleanRelative_examples :
    path.IsCleanRelative "game" ∧ path.IsCleanRelative "scribblers/v1" :=
  ⟨path.isCleanRelative_of_elem _ (by unfold path.IsElem; decide),
   ⟨["scribblers".data, "v1".data], by simp,
     by
       intro e he
       simp only [List.mem_cons, List.mem_singleton, List.not_mem_nil, or_false] at he
       rcases he with rfl | rfl <;> (unfold path.IsElem; decide),
     by decide⟩⟩


theorem isPrefixOf_append_self (a b : List Char) : a.isPrefixOf (a ++ b) = true := by
  induction a with
  | nil => simp
  | cons x xs ih => simp [List.isPrefixOf, ih]

theorem isPrefixOf_length_le : ∀ (a s : List Char), a.isPrefixOf s = true → a.length ≤ s.length
  | [], _, _ => by simp
  | _ :: _, [], h => by simp [List.isPrefixOf] at h
  | _ :: xs, _ :: ys, h => by
    simp only [List.isPrefixOf, Bool.and_eq_true] at h
    have := isPrefixOf_length_le xs ys h.2
    simp only [List.length_cons]
    omega

theorem strings.hasPrefix_append (pfx s : String) : strings.HasPrefix (pfx ++ s) pfx = true := by
  simp [strings.HasPrefix, String.data_append, isPrefixOf_append_self]

theorem strings.trimPrefix_append (pfx s : String) : strings.TrimPrefix (pfx ++ s) pfx = s := by
  simp [strings.TrimPrefix, strings.hasPrefix_append, String.data_append]

theorem strings.trimPrefix_length_lt (s pfx : String) (hne : pfx ≠ "") :
    (strings.TrimPrefix s pfx).length < s.length ↔ strings.HasPrefix s pfx = true := by
  have hpos : 0 < pfx.data.length := by
    rcases pfx with ⟨l⟩
    cases l with
    | nil => exact absurd rfl hne
    | cons _ _ => simp
  unfold strings.TrimPrefix
  by_cases hp : strings.HasPrefix s pfx = true
  · have hle := isPrefixOf_length_le _ _ hp
    simp only [hp, if_true, String.length, List.length_drop, iff_true]
    omega
  · simp [hp]

theorem slash_append_ne_empty (s : String) : "/" ++ s ≠ "" := by
  intro h
  have := congrArg String.data h
  simp [String.data_append] at this

theorem slash_append_slash_ne_empty (s : String) : "/" ++ s ++ "/" ≠ "" := by
  intro h
  have := congrArg String.data h
  simp [String.data_append] at this

/-- What `http.StripPrefix` does with a non-empty string to strip. -/
theorem http.StripPrefix_apply (pfx : String) (hne : pfx ≠ "") (h : HandlerFunc) (r : Request) :
    http.StripPrefix pfx h r =
      if strings.HasPrefix r.Path pfx = true ∧
          (r.RawPath = "" ∨ strings.HasPrefix r.RawPath pfx = true) then
        h { Path := strings.TrimPrefix r.Path pfx, RawPath := strings.TrimPrefix r.RawPath pfx }
      else [Effect.NotFound r] := by
  simp only [http.StripPrefix, hne, if_false, strings.trimPrefix_length_lt _ _ hne]

theorem SSRHandler.registered_eq (handler : SSRHandler) :
    handler.SetupRoutes.registered =
      handler.mounts.map (SSRHandler.mountRoute handler.cfg.RootPath) ++
        SSRHandler.fixedRoutes handler.cfg.RootPath
          (if handler.cfg.ServeDirectories.index "" ≠ "" then
            some (http.FileServer (handler.cfg.ServeDirectories.index "")) else none) := rfl

theorem SSRHandler.mounts_eq (handler : SSRHandler) :
    handler.mounts =
      if handler.cfg.ServeDirectories.index "" ≠ "" then handler.cfg.ServeDirectories.delete ""
      else handler.cfg.ServeDirectories := rfl

theorem StringMap.lookup_delete_of_ne (m : StringMap) (k k0 : String) (hk : k ≠ k0) :
    (m.delete k0).lookup k = m.lookup k := by
  induction m with
  | nil => rfl
  | cons e es ih =>
    rcases e with ⟨a, b⟩
    unfold StringMap.delete at ih ⊢
    by_cases ha : a = k0
    · subst ha
      have hka : (k == a) = false := by simpa using hk
      simp [List.filter_cons, List.lookup_cons, hka, ih]
    · have hne : (a != k0) = true := by simpa using ha
      simp only [List.filter_cons, hne, if_true, List.lookup_cons, ih]

theorem StringMap.mem_delete (m : StringMap) (k0 : String) (e : String × String) :
    e ∈ m.delete k0 ↔ e ∈ m ∧ e.1 ≠ k0 := by
  simp [StringMap.delete, List.mem_filter]

/-! ## The root handler -/

/-- C3: the root handler registered by SetupRoutes (the call to register that
follows the mounts, method GET, pattern the root path) answers a request with
path "" or "/" by invoking the index page handler exactly once and nothing
else; any other path invokes the generic fallback (the file server of the
directory stored under the empty-string key) exactly once when that directory
is non-empty, and invokes nothing at all when no fallback was configured, that
is when the empty-string key is absent or mapped to "". -/
theorem C3_root_handler (handler : SSRHandler) (r : Request) :
    ∃ rt : Route,
      handler.SetupRoutes.registered[handler.mounts.length]? = some rt ∧
      rt.method = "GET" ∧ rt.pattern = handler.cfg.RootPath ∧
      rt.handler r =
        (if r.Path = "" ∨ r.Path = "/" then [Effect.indexPageHandler r]
         else if handler.cfg.ServeDirectories.index "" ≠ "" then
           [Effect.dirFileServer (handler.cfg.ServeDirectories.index "") r]
         else []) ∧
      (handler.cfg.ServeDirectories.index "" = "" ↔
        handler.cfg.ServeDirectories.lookup "" = none ∨
          handler.cfg.ServeDirectories.lookup "" = some "") := by
  refine ⟨{ method := "GET", pattern := handler.cfg.RootPath,
             handler := SSRHandler.rootHandler
               (if handler.cfg.ServeDirectories.index "" ≠ "" then
                 some (http.FileServer (handler.cfg.ServeDirectories.index "")) else none) },
    ?_, rfl, rfl, ?_, ?_⟩
  · rw [SSRHandler.registered_eq, List.getElem?_append_right (by simp)]
    simp only [List.length_map, Nat.sub_self, SSRHandler.fixedRoutes]
    rfl
  · simp only [SSRHandler.rootHandler]
    by_cases hp : r.Path = "" ∨ r.Path = "/"
    · simp [hp]
    · by_cases hd : handler.cfg.ServeDirectories.index "" = ""
      · simp [hp, hd]
      · simp [hp, hd, http.FileServer]
  · unfold StringMap.index
    cases hl : List.lookup "" handler.cfg.ServeDirectories with
    | none => simp
    | some d => simp

/-- C4: evaluation of the root handler at a non-empty root path. With root path
"game" the route is registered under the pattern "game", and a request whose
path is the root path ("/game" as a URL path, or "game"), or the root path
followed by "/", is not answered with the index page: the handler compares the
whole request path with "" and "/", so the request goes to the generic fallback
when one is configured and gets no response at all otherwise. -/
theorem C4_root_path_request_misses_index :
    (∃ rt : Route,
      (mkHandler "game" [("", "/www")]).SetupRoutes.registered[0]? = some rt ∧
      rt.method = "GET" ∧ rt.pattern = "game" ∧
      rt.handler ⟨"/game", ""⟩ = [Effect.dirFileServer "/www" ⟨"/game", ""⟩] ∧
      rt.handler ⟨"/game/", ""⟩ = [Effect.dirFileServer "/www" ⟨"/game/", ""⟩] ∧
      rt.handler ⟨"game", ""⟩ = [Effect.dirFileServer "/www" ⟨"game", ""⟩] ∧
      rt.handler ⟨"game/", ""⟩ = [Effect.dirFileServer "/www" ⟨"game/", ""⟩]) ∧
    (∃ rt : Route,
      (mkHandler "game" []).SetupRoutes.registered[0]? = some rt ∧
      rt.method = "GET" ∧ rt.pattern = "game" ∧
      rt.handler ⟨"/game", ""⟩ = [] ∧ rt.handler ⟨"/game/", ""⟩ = [] ∧
      rt.handler ⟨"game", ""⟩ = [] ∧ rt.handler ⟨"game/", ""⟩ = []) := by
  refine ⟨⟨{ method := "GET", pattern := "game",
             handler := SSRHandler.rootHandler (some (http.FileServer "/www")) },
            rfl, rfl, rfl, ?_, ?_, ?_, ?_⟩,
          ⟨{ method := "GET", pattern := "game", handler := SSRHandler.rootHandler none },
            rfl, rfl, rfl, ?_, ?_, ?_, ?_⟩⟩ <;> decide

/-! ## The embedded resources -/

/-- C7 as amended: the embedded-resource route (the second call to register
after the mounts, method GET, pattern path.Join(rootPath, "resources",
"{file}")) answers a request whose path starts with "/" + rootPath (and whose
raw path, when there is one, starts with it too) by setting Cache-Control to
"public, max-age=31536000" and then handing the stripped request to the
embedded file server; every other request is answered by http.NotFound alone,
with no header set. -/
theorem C7_resources_cache_control (handler : SSRHandler) (r : Request) :
    ∃ rt : Route,
      handler.SetupRoutes.registered[handler.mounts.length + 1]? = some rt ∧
      rt.method = "GET" ∧
      rt.pattern = path.Join [handler.cfg.RootPath, "resources", "{file}"] ∧
      rt.handler r =
        (if strings.HasPrefix r.Path ("/" ++ handler.cfg.RootPath) = true ∧
            (r.RawPath = "" ∨
              strings.HasPrefix r.RawPath ("/" ++ handler.cfg.RootPath) = true) then
          [Effect.headerSet "Cache-Control" "public, max-age=31536000",
           Effect.resourcesFileServer
             { Path := strings.TrimPrefix r.Path ("/" ++ handler.cfg.RootPath)
               RawPath := strings.TrimPrefix r.RawPath ("/" ++ handler.cfg.RootPath) }]
        else [Effect.NotFound r]) := by
  refine ⟨{ method := "GET",
            pattern := path.Join [handler.cfg.RootPath, "resources", "{file}"],
            handler := http.StripPrefix ("/" ++ handler.cfg.RootPath)
              SSRHandler.resourcesHandler }, ?_, rfl, rfl, ?_⟩
  · rw [SSRHandler.registered_eq, List.getElem?_append_right (by simp)]
    simp only [List.length_map, Nat.add_sub_cancel_left, SSRHandler.fixedRoutes]
    rfl
  · simp only [http.StripPrefix_apply _ (slash_append_ne_empty _), SSRHandler.resourcesHandler]

/-- C7 counterexample: with root path "game", the request for
"/gam%65/resources/a.css" (path "/game/resources/a.css", raw path as sent) is
answered by the embedded-resource route with http.NotFound only, and with root
path "/game" so is the request for "/game/resources/a.css": the prefix strip
fails and no Cache-Control header is set. -/
theorem C7_counterexample :
    (∃ rt : Route,
      (mkHandler "game" []).SetupRoutes.registered[1]? = some rt ∧
      rt.pattern = "game/resources/{file}" ∧
      rt.handler ⟨"/game/resources/a.css", "/gam%65/resources/a.css"⟩ =
        [Effect.NotFound ⟨"/game/resources/a.css", "/gam%65/resources/a.css"⟩] ∧
      Effect.headerSet "Cache-Control" "public, max-age=31536000" ∉
        rt.handler ⟨"/game/resources/a.css", "/gam%65/resources/a.css"⟩) ∧
    (∃ rt : Route,
      (mkHandler "/game" []).SetupRoutes.registered[1]? = some rt ∧
      rt.pattern = "/game/resources/{file}" ∧
      rt.handler ⟨"/game/resources/a.css", ""⟩ =
        [Effect.NotFound ⟨"/game/resources/a.css", ""⟩] ∧
      Effect.headerSet "Cache-Control" "public, max-age=31536000" ∉
        rt.handler ⟨"/game/resources/a.css", ""⟩) := by
  refine ⟨⟨{ method := "GET", pattern := "game/resources/{file}",
             handler := http.StripPrefix "/game" SSRHandler.resourcesHandler },
            ?_, rfl, ?_, ?_⟩,
          ⟨{ method := "GET", pattern := "/game/resources/{file}",
             handler := http.StripPrefix "//game" SSRHandler.resourcesHandler },
            ?_, rfl, ?_, ?_⟩⟩
  · have h : path.Join ["game", "resources", "{file}"] = "game/resources/{file}" := by decide
    rw [SSRHandler.registered_eq]
    simp only [SSRHandler.fixedRoutes, mkHandler, h]
    rfl
  · decide
  · decide
  · have h : path.Join ["/game", "resources", "{file}"] = "/game/resources/{file}" := by decide
    rw [SSRHandler.registered_eq]
    simp only [SSRHandler.fixedRoutes, mkHandler, h]
    rfl
  · decide
  · decide

/-! ## The configuration after the call -/

/-- C8 as amended: SetupRoutes leaves RootPath and the base page configuration
as they were, and leaves the ServeDirectories table as it was except that the
empty-string key is deleted when it was mapped to a non-empty directory: every
other key keeps its value, and when the empty-string key was absent or mapped
to "" the whole handler is unchanged. Besides the calls to register, the call
prints one diagnostic line per mount it registers. -/
theorem C8_configuration_after_setup (handler : SSRHandler) :
    handler.SetupRoutes.handler.cfg.RootPath = handler.cfg.RootPath ∧
    handler.SetupRoutes.handler.basePageConfig = handler.basePageConfig ∧
    handler.SetupRoutes.handler.cfg.ServeDirectories =
      (if handler.cfg.ServeDirectories.index "" ≠ "" then
        handler.cfg.ServeDirectories.delete ""
      else handler.cfg.ServeDirectories) ∧
    (∀ k : String, k ≠ "" →
      handler.SetupRoutes.handler.cfg.ServeDirectories.index k =
        handler.cfg.ServeDirectories.index k) ∧
    (∀ e : String × String, e.1 ≠ "" →
      (e ∈ handler.SetupRoutes.handler.cfg.ServeDirectories ↔
        e ∈ handler.cfg.ServeDirectories)) ∧
    (handler.cfg.ServeDirectories.index "" ≠ "" →
      handler.SetupRoutes.handler.cfg.ServeDirectories.index "" = "") ∧
    (handler.cfg.ServeDirectories.index "" = "" →
      handler.SetupRoutes.handler = handler) ∧
    handler.SetupRoutes.stdout.length = handler.mounts.length := by
  have hm := SSRHandler.mounts_eq handler
  unfold SSRHandler.mounts at hm
  refine ⟨rfl, rfl, hm, ?_, ?_, ?_, ?_, ?_⟩
  · intro k hk
    rw [hm]
    by_cases hd : handler.cfg.ServeDirectories.index "" = ""
    · simp [hd]
    · rw [if_pos hd]
      simp only [StringMap.index, StringMap.lookup_delete_of_ne _ _ _ hk]
  · intro e he
    rw [hm]
    by_cases hd : handler.cfg.ServeDirectories.index "" = ""
    · simp [hd]
    · simp [hd, StringMap.mem_delete, he]
  · intro hd
    rw [hm, if_pos hd]
    simp only [StringMap.index]
    have hnone : ∀ m : StringMap, (m.delete "").lookup "" = none := by
      intro m
      induction m with
      | nil => rfl
      | cons e es ih =>
        rcases e with ⟨a, b⟩
        unfold StringMap.delete at ih ⊢
        by_cases ha : a = ""
        · subst ha
          simpa [List.filter_cons] using ih
        · have hne : (a != "") = true := by simpa using ha
          have hka : ("" == a) = false := by
            simpa using (fun h : "" = a => ha h.symm)
          simp only [List.filter_cons, hne, if_true, List.lookup_cons, hka, ih]
    rw [hnone]
    rfl
  · intro hd
    rcases handler with ⟨⟨root, table⟩, base⟩
    simp only [SSRHandler.SetupRoutes, ne_eq] at hd ⊢
    simp [hd]
  · simp [SSRHandler.SetupRoutes, SSRHandler.mounts]

/-- C8 counterexample: for the table {"": "/www", "assets": "/static"} the
handler's configuration after SetupRoutes differs from the one before: the
empty-string key, mapped to "/www" before the call, is gone from the table. -/
theorem C8_counterexample :
    scenarioHandler.SetupRoutes.handler ≠ scenarioHandler ∧
    scenarioHandler.cfg.ServeDirectories.lookup "" = some "/www" ∧
    scenarioHandler.SetupRoutes.handler.cfg.ServeDirectories.lookup "" = none ∧
    scenarioHandler.SetupRoutes.handler.cfg.ServeDirectories = [("assets", "/static")] := by
  decide

/-! ## The error page -/

/-- C9: for every message, userFacingError executes the template "error-page"
exactly once, against the response target it was given, with data whose
BasePageConfig is the handler's basePageConfig and whose ErrorMessage is the
message (Translation and Locale unset); it panics, with the error, exactly when
that execution returns an error, and returns normally exactly when it returns
none; there is no second execution in either case. -/
theorem C9_userFacingError {W E Translation : Type}
    (ExecuteTemplate : W → String → errorPageData Translation → W × Option E)
    (handler : SSRHandler) (w : W) (errorMessage : String) :
    (handler.userFacingError ExecuteTemplate w errorMessage).calls =
      [⟨w, "error-page", ⟨handler.basePageConfig, errorMessage, none, ""⟩⟩] ∧
    (handler.userFacingError ExecuteTemplate w errorMessage).w =
      (ExecuteTemplate w "error-page" ⟨handler.basePageConfig, errorMessage, none, ""⟩).1 ∧
    (∀ err : E,
      (handler.userFacingError ExecuteTemplate w errorMessage).outcome = Outcome.panicked err ↔
        (ExecuteTemplate w "error-page" ⟨handler.basePageConfig, errorMessage, none, ""⟩).2 =
          some err) ∧
    ((handler.userFacingError ExecuteTemplate w errorMessage).outcome = Outcome.returned ↔
      (ExecuteTemplate w "error-page" ⟨handler.basePageConfig, errorMessage, none, ""⟩).2 =
        none) := by
  unfold SSRHandler.userFacingError
  cases hres : (ExecuteTemplate w "error-page"
      ⟨handler.basePageConfig, errorMessage, none, ""⟩).2 with
  | none => simp [hres]
  | some e => simp [hres]

/-! ## The static mounts -/

theorem StringMap.key_ne_of_lookup_none (m : StringMap) (k : String)
    (h : m.lookup k = none) : ∀ e ∈ m, e.1 ≠ k := by
  induction m with
  | nil => intro e he; cases he
  | cons a as ih =>
    rcases a with ⟨a1, a2⟩
    by_cases hk : k = a1
    · subst hk
      simp [List.lookup_cons] at h
    · have hka : (k == a1) = false := by simpa using hk
      simp only [List.lookup_cons, hka] at h
      intro e he
      rcases List.mem_cons.mp he with rfl | he
      · exact fun h1 => hk h1.symm
      · exact ih h e he

theorem SSRHandler.mountRoute_mem (handler : SSRHandler) (e : String × String)
    (he : e ∈ handler.mounts) :
    SSRHandler.mountRoute handler.cfg.RootPath e ∈ handler.SetupRoutes.registered := by
  rw [SSRHandler.registered_eq]
  exact List.mem_append_left _ (List.mem_map_of_mem _ he)

/-- C1 as amended: for every root path and every mount table in which the
empty-string key is absent or mapped to a non-empty directory, no static-mount
route is built from the empty-string key: the calls to register are one mount
route per entry of a table all of whose keys are non-empty (each an entry of
the configured table), followed by the four fixed routes, and the
empty-string key only decides whether the root handler has a generic fallback
(the file server of its directory). -/
theorem C1_empty_key_not_mounted (handler : SSRHandler)
    (hkey : handler.cfg.ServeDirectories.lookup "" ≠ some "") :
    (∀ e ∈ handler.mounts, e ∈ handler.cfg.ServeDirectories ∧ e.1 ≠ "") ∧
    handler.SetupRoutes.registered =
      handler.mounts.map (SSRHandler.mountRoute handler.cfg.RootPath) ++
        SSRHandler.fixedRoutes handler.cfg.RootPath
          (if handler.cfg.ServeDirectories.index "" ≠ "" then
            some (http.FileServer (handler.cfg.ServeDirectories.index "")) else none) := by
  refine ⟨?_, SSRHandler.registered_eq handler⟩
  intro e he
  rw [SSRHandler.mounts_eq] at he
  cases hl : handler.cfg.ServeDirectories.lookup "" with
  | none =>
    have hidx : handler.cfg.ServeDirectories.index "" = "" := by
      simp [StringMap.index, hl]
    rw [if_neg (by simpa using hidx)] at he
    exact ⟨he, StringMap.key_ne_of_lookup_none _ _ hl e he⟩
  | some d =>
    have hd : d ≠ "" := fun h => hkey (by rw [hl, h])
    have hidx : handler.cfg.ServeDirectories.index "" ≠ "" := by
      simpa [StringMap.index, hl] using hd
    rw [if_pos hidx] at he
    exact (StringMap.mem_delete _ _ _).mp he

/-- Witness for C1 as amended: the table {"": "/www", "assets": "/static"}. -/
theorem C1_empty_key_not_mounted_witness :
    scenarioHandler.cfg.ServeDirectories.lookup "" ≠ some "" ∧
    ((∀ e ∈ scenarioHandler.mounts, e ∈ scenarioHandler.cfg.ServeDirectories ∧ e.1 ≠ "") ∧
      scenarioHandler.SetupRoutes.registered =
        scenarioHandler.mounts.map (SSRHandler.mountRoute scenarioHandler.cfg.RootPath) ++
          SSRHandler.fixedRoutes scenarioHandler.cfg.RootPath
            (if scenarioHandler.cfg.ServeDirectories.index "" ≠ "" then
              some (http.FileServer (scenarioHandler.cfg.ServeDirectories.index ""))
            else none)) :=
  ⟨by decide, C1_empty_key_not_mounted scenarioHandler (by decide)⟩

/-- C1 counterexample: for the table {"": ""} the first call to register is
the static-mount route built from the empty-string key, GET "/" serving
os.DirFS(""), followed by the four fixed routes. -/
theorem C1_counterexample :
    ("", "") ∈ (mkHandler "" [("", "")]).mounts ∧
    (mkHandler "" [("", "")]).SetupRoutes.registered =
      SSRHandler.mountRoute "" ("", "") :: SSRHandler.fixedRoutes "" none ∧
    (SSRHandler.mountRoute "" ("", "")).key = ("GET", "/") ∧
    (SSRHandler.mountRoute "" ("", "")).handler ⟨"//index.html", ""⟩ =
      [Effect.dirFileServer "" ⟨"index.html", ""⟩] ∧
    (mkHandler "" [("", "")]).registeredKeys =
      [("GET", "/"), ("GET", ""), ("GET", "resources/{file}"),
       ("GET", "ssrEnterLobby/{lobby_id}"), ("POST", "ssrCreateLobby")] := by
  refine ⟨by decide, rfl, by decide, by decide, by decide⟩

/-- C2 as amended: for every mount table and every entry (prefix, directory)
in it whose directory is the empty string and whose prefix is non-empty,
SetupRoutes does not skip the entry: it stays in the table the loop ranges
over and register is called with GET, the pattern path.Join(rootPath, prefix)
followed by "/", and a handler that strips "/" + path.Join(rootPath, prefix) +
"/" and serves os.DirFS(""). -/
theorem C2_empty_directory_is_registered (handler : SSRHandler) (route : String)
    (hroute : route ≠ "") (hmem : (route, "") ∈ handler.cfg.ServeDirectories) :
    (route, "") ∈ handler.mounts ∧
    ∃ rt ∈ handler.SetupRoutes.registered,
      rt.method = "GET" ∧
      rt.pattern = path.Join [handler.cfg.RootPath, route] ++ "/" ∧
      rt.handler =
        http.StripPrefix ("/" ++ path.Join [handler.cfg.RootPath, route] ++ "/")
          (http.FileServer "") := by
  have hm : (route, "") ∈ handler.mounts := by
    rw [SSRHandler.mounts_eq]
    by_cases hd : handler.cfg.ServeDirectories.index "" = ""
    · rw [if_neg (by simpa using hd)]
      exact hmem
    · rw [if_pos hd]
      exact (StringMap.mem_delete _ _ _).mpr ⟨hmem, hroute⟩
  exact ⟨hm, _, SSRHandler.mountRoute_mem handler _ hm, rfl, rfl, rfl⟩

/-- Witness for C2 as amended: the table {"assets": ""} under root path "". -/
theorem C2_empty_directory_is_registered_witness :
    "assets" ≠ "" ∧
    ("assets", "") ∈ (mkHandler "" [("assets", "")]).cfg.ServeDirectories ∧
    (("assets", "") ∈ (mkHandler "" [("assets", "")]).mounts ∧
      ∃ rt ∈ (mkHandler "" [("assets", "")]).SetupRoutes.registered,
        rt.method = "GET" ∧
        rt.pattern = path.Join [(mkHandler "" [("assets", "")]).cfg.RootPath, "assets"] ++ "/" ∧
        rt.handler =
          http.StripPrefix
            ("/" ++ path.Join [(mkHandler "" [("assets", "")]).cfg.RootPath, "assets"] ++ "/")
            (http.FileServer "")) :=
  ⟨by decide, by decide, C2_empty_directory_is_registered _ "assets" (by decide) (by decide)⟩

/-- C2 counterexample: for the table {"assets": ""} SetupRoutes calls register
for the entry with the empty directory: the first call is GET "assets/" with a
handler that hands "/assets/app.js", stripped to "app.js", to the file server
of the directory "". -/
theorem C2_counterexample :
    (mkHandler "" [("assets", "")]).registeredKeys =
      [("GET", "assets/"), ("GET", ""), ("GET", "resources/{file}"),
       ("GET", "ssrEnterLobby/{lobby_id}"), ("POST", "ssrCreateLobby")] ∧
    ∃ rt : Route,
      (mkHandler "" [("assets", "")]).SetupRoutes.registered[0]? = some rt ∧
      rt.key = ("GET", "assets/") ∧
      rt.handler ⟨"/assets/app.js", ""⟩ = [Effect.dirFileServer "" ⟨"app.js", ""⟩] := by
  refine ⟨by decide, SSRHandler.mountRoute "" ("assets", ""), rfl, by decide, by decide⟩

/-- C5 as amended: for every root path and every mount (P, D) that remains
after the empty-string key is extracted, SetupRoutes registers method GET under
the pattern path.Join(rootPath, P) followed by "/", and the handler strips
exactly "/" + path.Join(rootPath, P) + "/": a request whose path is that string
followed by rel (with no raw path, or a raw path that starts with the same
string) hands exactly rel to the file server rooted at D, and a request whose
path does not start with that string is answered 404 without reaching the file
server. -/
theorem C5_mount_route (handler : SSRHandler) (P D : String)
    (hmem : (P, D) ∈ handler.mounts) :
    ∃ rt ∈ handler.SetupRoutes.registered,
      rt.method = "GET" ∧
      rt.pattern = path.Join [handler.cfg.RootPath, P] ++ "/" ∧
      (∀ rel : String,
        rt.handler ⟨"/" ++ path.Join [handler.cfg.RootPath, P] ++ "/" ++ rel, ""⟩ =
          [Effect.dirFileServer D ⟨rel, ""⟩]) ∧
      (∀ rel raw : String,
        rt.handler ⟨"/" ++ path.Join [handler.cfg.RootPath, P] ++ "/" ++ rel,
                    "/" ++ path.Join [handler.cfg.RootPath, P] ++ "/" ++ raw⟩ =
          [Effect.dirFileServer D ⟨rel, raw⟩]) ∧
      (∀ req : Request,
        strings.HasPrefix req.Path ("/" ++ path.Join [handler.cfg.RootPath, P] ++ "/") = false →
          rt.handler req = [Effect.NotFound req]) ∧
      (∀ req : Request,
        rt.handler req =
          if strings.HasPrefix req.Path
                ("/" ++ path.Join [handler.cfg.RootPath, P] ++ "/") = true ∧
              (req.RawPath = "" ∨
                strings.HasPrefix req.RawPath
                  ("/" ++ path.Join [handler.cfg.RootPath, P] ++ "/") = true) then
            [Effect.dirFileServer D
              { Path := strings.TrimPrefix req.Path
                  ("/" ++ path.Join [handler.cfg.RootPath, P] ++ "/")
                RawPath := strings.TrimPrefix req.RawPath
                  ("/" ++ path.Join [handler.cfg.RootPath, P] ++ "/") }]
          else [Effect.NotFound req]) ∧
      (path.IsCleanRelative handler.cfg.RootPath → path.IsCleanRelative P →
        path.Join [handler.cfg.RootPath, P] = handler.cfg.RootPath ++ "/" ++ P) := by
  refine ⟨_, SSRHandler.mountRoute_mem handler _ hmem, rfl, rfl, ?_, ?_, ?_, ?_,
    path.Join_pair _ _⟩
  · intro rel
    simp only [SSRHandler.mountRoute,
      http.StripPrefix_apply _ (slash_append_slash_ne_empty _),
      strings.hasPrefix_append, strings.trimPrefix_append, true_or, and_self, if_true,
      http.FileServer]
    simp [strings.TrimPrefix, strings.HasPrefix, String.data_append]
  · intro rel raw
    simp only [SSRHandler.mountRoute,
      http.StripPrefix_apply _ (slash_append_slash_ne_empty _),
      strings.hasPrefix_append, strings.trimPrefix_append, or_true, and_self, if_true,
      http.FileServer]
  · intro req hreq
    simp only [SSRHandler.mountRoute,
      http.StripPrefix_apply _ (slash_append_slash_ne_empty _), hreq]
    simp
  · intro req
    simp only [SSRHandler.mountRoute,
      http.StripPrefix_apply _ (slash_append_slash_ne_empty _), http.FileServer]

/-- Witness for C5 as amended: the mount "assets" ↦ "/static" under root path
"game", with the fallback entry extracted. -/
theorem C5_mount_route_witness :
    ("assets", "/static") ∈ gameHandler.mounts ∧
    ∃ rt ∈ gameHandler.SetupRoutes.registered,
      rt.method = "GET" ∧
      rt.pattern = path.Join [gameHandler.cfg.RootPath, "assets"] ++ "/" ∧
      (∀ rel : String,
        rt.handler ⟨"/" ++ path.Join [gameHandler.cfg.RootPath, "assets"] ++ "/" ++ rel, ""⟩ =
          [Effect.dirFileServer "/static" ⟨rel, ""⟩]) ∧
      (∀ rel raw : String,
        rt.handler ⟨"/" ++ path.Join [gameHandler.cfg.RootPath, "assets"] ++ "/" ++ rel,
                    "/" ++ path.Join [gameHandler.cfg.RootPath, "assets"] ++ "/" ++ raw⟩ =
          [Effect.dirFileServer "/static" ⟨rel, raw⟩]) ∧
      (∀ req : Request,
        strings.HasPrefix req.Path
            ("/" ++ path.Join [gameHandler.cfg.RootPath, "assets"] ++ "/") = false →
          rt.handler req = [Effect.NotFound req]) ∧
      (∀ req : Request,
        rt.handler req =
          if strings.HasPrefix req.Path
                ("/" ++ path.Join [gameHandler.cfg.RootPath, "assets"] ++ "/") = true ∧
              (req.RawPath = "" ∨
                strings.HasPrefix req.RawPath
                  ("/" ++ path.Join [gameHandler.cfg.RootPath, "assets"] ++ "/") = true) then
            [Effect.dirFileServer "/static"
              { Path := strings.TrimPrefix req.Path
                  ("/" ++ path.Join [gameHandler.cfg.RootPath, "assets"] ++ "/")
                RawPath := strings.TrimPrefix req.RawPath
                  ("/" ++ path.Join [gameHandler.cfg.RootPath, "assets"] ++ "/") }]
          else [Effect.NotFound req]) ∧
      (path.IsCleanRelative gameHandler.cfg.RootPath → path.IsCleanRelative "assets" →
        path.Join [gameHandler.cfg.RootPath, "assets"] =
          gameHandler.cfg.RootPath ++ "/" ++ "assets") :=
  ⟨by decide, C5_mount_route gameHandler "assets" "/static" (by decide)⟩

/-- C5 counterexample: with root path "/game" and the mount "assets" ↦
"/static" the route is registered under the pattern "/game/assets/", yet the
request for "/game/assets/app.js" is answered 404 and never reaches the file
server, because the handler strips "//game/assets/"; and with root path "" the
same mount is registered under "assets/", not "/assets/". -/
theorem C5_counterexample :
    (∃ rt : Route,
      (mkHandler "/game" [("assets", "/static")]).SetupRoutes.registered[0]? = some rt ∧
      rt.key = ("GET", "/game/assets/") ∧
      rt.handler ⟨"/game/assets/app.js", ""⟩ = [Effect.NotFound ⟨"/game/assets/app.js", ""⟩] ∧
      rt.handler ⟨"/game/assets/app.js", ""⟩ ≠ [Effect.dirFileServer "/static" ⟨"app.js", ""⟩]) ∧
    (∃ rt : Route,
      (mkHandler "" [("assets", "/static")]).SetupRoutes.registered[0]? = some rt ∧
      rt.key = ("GET", "assets/") ∧ rt.pattern ≠ "" ++ "/" ++ "assets" ++ "/") := by
  refine ⟨⟨SSRHandler.mountRoute "/game" ("assets", "/static"), rfl, by decide, by decide,
            by decide⟩,
          ⟨SSRHandler.mountRoute "" ("assets", "/static"), rfl, by decide, by decide⟩⟩

/-! ## A concrete configuration -/

/-- C6 as amended: for RootPath "" and ServeDirectories {"": "/www", "assets":
"/static"}, in either traversal order, SetupRoutes registers exactly five
routes, whose patterns carry no leading slash: GET "assets/" (stripping
"/assets/" and serving /static), GET "" (index page, or fallback to /www), GET
"resources/{file}" (stripping "/"), GET "ssrEnterLobby/{lobby_id}" and POST
"ssrCreateLobby". -/
theorem C6_scenario_routes :
    scenarioHandler.SetupRoutes.registered.length = 5 ∧
    scenarioHandler.registeredKeys =
      [("GET", "assets/"), ("GET", ""), ("GET", "resources/{file}"),
       ("GET", "ssrEnterLobby/{lobby_id}"), ("POST", "ssrCreateLobby")] ∧
    scenarioHandler.SetupRoutes.registered =
      [ { method := "GET", pattern := "assets/",
          handler := http.StripPrefix "/assets/" (http.FileServer "/static") },
        { method := "GET", pattern := "",
          handler := SSRHandler.rootHandler (some (http.FileServer "/www")) },
        { method := "GET", pattern := "resources/{file}",
          handler := http.StripPrefix "/" SSRHandler.resourcesHandler },
        { method := "GET", pattern := "ssrEnterLobby/{lobby_id}",
          handler := fun r => [Effect.ssrEnterLobby r] },
        { method := "POST", pattern := "ssrCreateLobby",
          handler := fun r => [Effect.ssrCreateLobby r] } ] ∧
    (mkHandler "" [("assets", "/static"), ("", "/www")]).SetupRoutes.registered =
      scenarioHandler.SetupRoutes.registered := by
  refine ⟨by decide, by decide, ?_, ?_⟩
  · have h1 : path.Join ["", "assets"] = "assets" := by decide
    have h2 : path.Join ["", "resources", "{file}"] = "resources/{file}" := by decide
    have h3 : path.Join ["", "ssrEnterLobby", "{lobby_id}"] = "ssrEnterLobby/{lobby_id}" := by
      decide
    have h4 : path.Join ["", "ssrCreateLobby"] = "ssrCreateLobby" := by decide
    have hm : scenarioHandler.mounts = [("assets", "/static")] := by decide
    have hi : scenarioHandler.cfg.ServeDirectories.index "" = "/www" := by decide
    rw [SSRHandler.registered_eq, hm, hi]
    simp only [List.map, SSRHandler.mountRoute, SSRHandler.fixedRoutes, scenarioHandler,
      mkHandler, h1, h2, h3, h4]
    rfl
  · have hm : scenarioHandler.mounts =
        (mkHandler "" [("assets", "/static"), ("", "/www")]).mounts := by decide
    have hi : scenarioHandler.cfg.ServeDirectories.index ""
        = (mkHandler "" [("assets", "/static"), ("", "/www")]).cfg.ServeDirectories.index "" := by
      decide
    rw [SSRHandler.registered_eq, SSRHandler.registered_eq, hm, hi]
    rfl

/-- C6 counterexample: for RootPath "" and ServeDirectories {"": "/www",
"assets": "/static"}, none of the five (method, pattern) pairs the claim lists
is passed to register. -/
theorem C6_counterexample :
    ("GET", "/assets/") ∉ scenarioHandler.registeredKeys ∧
    ("GET", "/") ∉ scenarioHandler.registeredKeys ∧
    ("GET", "/resources/{file}") ∉ scenarioHandler.registeredKeys ∧
    ("GET", "/ssrEnterLobby/{lobby_id}") ∉ scenarioHandler.registeredKeys ∧
    ("POST", "/ssrCreateLobby") ∉ scenarioHandler.registeredKeys := by
  decide

/-! ## Number and order of the registrations -/

theorem StringMap.lookup_eq_some_iff (m : StringMap) (hnd : (m.map Prod.fst).Nodup)
    (k v : String) : m.lookup k = some v ↔ (k, v) ∈ m := by
  induction m with
  | nil => simp
  | cons a as ih =>
    rcases a with ⟨a1, a2⟩
    simp only [List.map_cons, List.nodup_cons] at hnd
    by_cases hk : k = a1
    · subst hk
      have hnot : ∀ w, (k, w) ∉ as := fun w hw =>
        hnd.1 (List.mem_map_of_mem Prod.fst hw)
      simp only [List.lookup_cons, beq_self_eq_true, Option.some.injEq, List.mem_cons,
        Prod.mk.injEq, true_and]
      constructor
      · intro h; exact Or.inl h.symm
      · rintro (h | h)
        · exact h.symm
        · exact absurd h (hnot v)
    · have hka : (k == a1) = false := by simpa using hk
      simp only [List.lookup_cons, hka, List.mem_cons, Prod.mk.injEq, hk, false_and, false_or]
      exact ih hnd.2

theorem StringMap.index_perm (m1 m2 : StringMap) (hnd : (m1.map Prod.fst).Nodup)
    (hperm : m1.Perm m2) (k : String) : m1.index k = m2.index k := by
  have hnd2 : (m2.map Prod.fst).Nodup := (hperm.map Prod.fst).nodup_iff.mp hnd
  have hlook : m1.lookup k = m2.lookup k := by
    cases h1 : m1.lookup k with
    | some v =>
      have := (StringMap.lookup_eq_some_iff m1 hnd k v).mp h1
      exact ((StringMap.lookup_eq_some_iff m2 hnd2 k v).mpr (hperm.mem_iff.mp this)).symm
    | none =>
      cases h2 : m2.lookup k with
      | none => rfl
      | some v =>
        have := (StringMap.lookup_eq_some_iff m2 hnd2 k v).mp h2
        have h1' := (StringMap.lookup_eq_some_iff m1 hnd k v).mpr (hperm.mem_iff.mpr this)
        rw [h1] at h1'
        cases h1'
  unfold StringMap.index
  rw [hlook]

/-- For a root path in normal form the patterns of the fixed routes are the
root path followed by "/resources/{file}", "/ssrEnterLobby/{lobby_id}" and
"/ssrCreateLobby". -/
theorem path.Join_fixed_patterns (root : String) (hroot : path.IsCleanRelative root) :
    path.Join [root, "resources", "{file}"] = root ++ "/resources/{file}" ∧
    path.Join [root, "ssrEnterLobby", "{lobby_id}"] = root ++ "/ssrEnterLobby/{lobby_id}" ∧
    path.Join [root, "ssrCreateLobby"] = root ++ "/ssrCreateLobby" := by
  have e1 : path.IsCleanRelative "resources" :=
    path.isCleanRelative_of_elem _ (by unfold path.IsElem; decide)
  have e2 : path.IsCleanRelative "{file}" :=
    path.isCleanRelative_of_elem _ (by unfold path.IsElem; decide)
  have e3 : path.IsCleanRelative "ssrEnterLobby" :=
    path.isCleanRelative_of_elem _ (by unfold path.IsElem; decide)
  have e4 : path.IsCleanRelative "{lobby_id}" :=
    path.isCleanRelative_of_elem _ (by unfold path.IsElem; decide)
  have e5 : path.IsCleanRelative "ssrCreateLobby" :=
    path.isCleanRelative_of_elem _ (by unfold path.IsElem; decide)
  refine ⟨?_, ?_, ?_⟩
  · rw [path.Join_triple root _ _ hroot e1 e2]
    apply String.ext
    simp [String.data_append]
  · rw [path.Join_triple root _ _ hroot e3 e4]
    apply String.ext
    simp [String.data_append]
  · rw [path.Join_pair root _ hroot e5]
    apply String.ext
    simp [String.data_append]

theorem SSRHandler.registeredKeys_eq (handler : SSRHandler) :
    handler.registeredKeys =
      handler.mounts.map (fun e => ("GET", path.Join [handler.cfg.RootPath, e.1] ++ "/")) ++
        [("GET", handler.cfg.RootPath),
         ("GET", path.Join [handler.cfg.RootPath, "resources", "{file}"]),
         ("GET", path.Join [handler.cfg.RootPath, "ssrEnterLobby", "{lobby_id}"]),
         ("POST", path.Join [handler.cfg.RootPath, "ssrCreateLobby"])] := by
  unfold SSRHandler.registeredKeys
  rw [SSRHandler.registered_eq]
  simp [SSRHandler.fixedRoutes, SSRHandler.mountRoute, Route.key, Function.comp_def]

/-- C10 as amended: for every root path and every mount table, SetupRoutes
calls register exactly n+4 times, where n is the number of entries left in the
table after a non-empty-directory empty-string entry is removed: first one GET
route per remaining entry (prefix, directory), under the pattern
path.Join(rootPath, prefix) followed by "/", in traversal order; then, in this
order, GET rootPath, GET path.Join(rootPath, "resources", "{file}"), GET
path.Join(rootPath, "ssrEnterLobby", "{lobby_id}") and POST path.Join(rootPath,
"ssrCreateLobby"), where path.Join drops empty elements and cleans the result,
so that an empty root path gives patterns without a leading slash, while a
root path that is a relative path in normal form gives rootPath followed by
"/resources/{file}", "/ssrEnterLobby/{lobby_id}" and "/ssrCreateLobby"; and for
every other traversal order of the table the registered (method, pattern)
pairs are the same collection, with the four fixed routes still last. -/
theorem C10_registration_sequence (handler : SSRHandler) (table2 : StringMap)
    (hnd : (handler.cfg.ServeDirectories.map Prod.fst).Nodup)
    (hperm : handler.cfg.ServeDirectories.Perm table2) :
    handler.mounts =
      (if handler.cfg.ServeDirectories.index "" ≠ "" then handler.cfg.ServeDirectories.delete ""
       else handler.cfg.ServeDirectories) ∧
    handler.SetupRoutes.registered.length = handler.mounts.length + 4 ∧
    handler.registeredKeys =
      handler.mounts.map (fun e => ("GET", path.Join [handler.cfg.RootPath, e.1] ++ "/")) ++
        [("GET", handler.cfg.RootPath),
         ("GET", path.Join [handler.cfg.RootPath, "resources", "{file}"]),
         ("GET", path.Join [handler.cfg.RootPath, "ssrEnterLobby", "{lobby_id}"]),
         ("POST", path.Join [handler.cfg.RootPath, "ssrCreateLobby"])] ∧
    List.Perm (handler.withTable table2).registeredKeys handler.registeredKeys ∧
    (handler.withTable table2).registeredKeys.drop (handler.withTable table2).mounts.length =
      handler.registeredKeys.drop handler.mounts.length ∧
    (path.IsCleanRelative handler.cfg.RootPath →
      path.Join [handler.cfg.RootPath, "resources", "{file}"] =
          handler.cfg.RootPath ++ "/resources/{file}" ∧
        path.Join [handler.cfg.RootPath, "ssrEnterLobby", "{lobby_id}"] =
          handler.cfg.RootPath ++ "/ssrEnterLobby/{lobby_id}" ∧
        path.Join [handler.cfg.RootPath, "ssrCreateLobby"] =
          handler.cfg.RootPath ++ "/ssrCreateLobby") := by
  have hidx := StringMap.index_perm _ _ hnd hperm ""
  have hmounts : (handler.withTable table2).mounts.Perm handler.mounts := by
    rw [SSRHandler.mounts_eq, SSRHandler.mounts_eq]
    simp only [SSRHandler.withTable, ← hidx]
    by_cases hd : handler.cfg.ServeDirectories.index "" = ""
    · simpa [hd] using hperm.symm
    · simp only [ne_eq, hd, not_false_eq_true, if_true, StringMap.delete]
      exact (hperm.filter _).symm
  refine ⟨SSRHandler.mounts_eq handler, ?_, SSRHandler.registeredKeys_eq handler, ?_, ?_,
    path.Join_fixed_patterns _⟩
  · rw [SSRHandler.registered_eq]
    simp [SSRHandler.fixedRoutes]
  · rw [SSRHandler.registeredKeys_eq, SSRHandler.registeredKeys_eq]
    exact List.Perm.append_right _ (hmounts.map _)
  · rw [SSRHandler.registeredKeys_eq, SSRHandler.registeredKeys_eq]
    simp [SSRHandler.withTable]

/-- Witness for C10 as amended: a table with a fallback and two mounts under
root path "game", and the same table in another traversal order. -/
theorem C10_registration_sequence_witness :
    (gameHandler.cfg.ServeDirectories.map Prod.fst).Nodup ∧
    gameHandler.cfg.ServeDirectories.Perm gameTableReordered ∧
    (gameHandler.mounts =
      (if gameHandler.cfg.ServeDirectories.index "" ≠ "" then
        gameHandler.cfg.ServeDirectories.delete ""
       else gameHandler.cfg.ServeDirectories) ∧
    gameHandler.SetupRoutes.registered.length = gameHandler.mounts.length + 4 ∧
    gameHandler.registeredKeys =
      gameHandler.mounts.map
          (fun e => ("GET", path.Join [gameHandler.cfg.RootPath, e.1] ++ "/")) ++
        [("GET", gameHandler.cfg.RootPath),
         ("GET", path.Join [gameHandler.cfg.RootPath, "resources", "{file}"]),
         ("GET", path.Join [gameHandler.cfg.RootPath, "ssrEnterLobby", "{lobby_id}"]),
         ("POST", path.Join [gameHandler.cfg.RootPath, "ssrCreateLobby"])] ∧
    List.Perm (gameHandler.withTable gameTableReordered).registeredKeys
      gameHandler.registeredKeys ∧
    (gameHandler.withTable gameTableReordered).registeredKeys.drop
        (gameHandler.withTable gameTableReordered).mounts.length =
      gameHandler.registeredKeys.drop gameHandler.mounts.length ∧
    (path.IsCleanRelative gameHandler.cfg.RootPath →
      path.Join [gameHandler.cfg.RootPath, "resources", "{file}"] =
          gameHandler.cfg.RootPath ++ "/resources/{file}" ∧
        path.Join [gameHandler.cfg.RootPath, "ssrEnterLobby", "{lobby_id}"] =
          gameHandler.cfg.RootPath ++ "/ssrEnterLobby/{lobby_id}" ∧
        path.Join [gameHandler.cfg.RootPath, "ssrCreateLobby"] =
          gameHandler.cfg.RootPath ++ "/ssrCreateLobby")) :=
  ⟨by decide, by decide, C10_registration_sequence gameHandler gameTableReordered
    (by decide) (by decide)⟩

/-- C10 counterexample: with root path "" and an empty mount table the four
calls to register carry the patterns "", "resources/{file}",
"ssrEnterLobby/{lobby_id}" and "ssrCreateLobby"; the patterns
"/resources/{file}", "/ssrEnterLobby/{lobby_id}" and "/ssrCreateLobby", which
are the root path followed by "/resources/{file}" and so on, are not
registered. -/
theorem C10_counterexample :
    (mkHandler "" []).registeredKeys =
      [("GET", ""), ("GET", "resources/{file}"), ("GET", "ssrEnterLobby/{lobby_id}"),
       ("POST", "ssrCreateLobby")] ∧
    ("GET", "" ++ "/resources/{file}") ∉ (mkHandler "" []).registeredKeys ∧
    ("GET", "" ++ "/ssrEnterLobby/{lobby_id}") ∉ (mkHandler "" []).registeredKeys ∧
    ("POST", "" ++ "/ssrCreateLobby") ∉ (mkHandler "" []).registeredKeys := by
  decide
